import Mathlib

set_option maxRecDepth 40000

/-!
Shallow embedding of the core logic of `src/utils.js` (a Discord bot relaying
messages to the Gemini API): the error/response formatter (`handleGeminiError`,
`handleResponse`), the API-key check (`checkGeminiApiKey`), the validity gate
(`isInvalidOriginalMessage`) and the reply-chain reconstruction
(`fetchThreadMessages` / `getThreadMessages`).

Modelling conventions:
- JS strings are Lean `String`s; one JS UTF-16 unit is modelled as one `Char`.
- Platform message fetching (`message.channel.messages.fetch`) is a function
  `Nat → Option Msg`; `none` models the Discord "Unknown Message" failure
  (`DiscordAPIError` with code 10008, i.e. deleted / not accessible).
- The unbounded `while` walk of `getThreadMessages` is given explicit fuel;
  running out of fuel is a distinct outcome (`fuelOut`) so no theorem below
  confuses nontermination with a source-level result.
- String operations used by the source (`split("\n")`, `startsWith`,
  `substring(0, n)`, the regexes `/<@\d+>\s*/`, `/<@&?\d+>/g`) are given
  executable models over `List Char` mirroring the JavaScript semantics.
-/

/-! ## Platform data model -/

/-- One embed attached to a Discord message.  The source only ever consults
`embeds[0].footer?.text`; both "no footer" and "footer without text" behave
identically everywhere the source looks (they fail every `startsWith` test and
are falsy), so the two are collapsed into `footerText = none`. -/
structure MsgEmbed where
  footerText : Option String
deriving Repr, DecidableEq

/-- A Discord message as consumed by `utils.js`: author identity, raw content,
optional reply reference (the referenced message id), embeds.
`createdTimestamp` is Discord metadata that the code never reads; it is carried
only so that chronology statements about walks can be expressed. -/
structure Msg where
  authorId : Nat
  content : String
  reference : Option Nat
  embeds : List MsgEmbed
  createdTimestamp : Nat
deriving Repr, DecidableEq

/-- One conversation turn as built by `getThreadMessages`:
`{ role, parts: [{ text }] }` in the source, with the single-element `parts`
array flattened to one field.  `text` is an `Option` because the source can
store JavaScript `undefined` there (a footer with fewer than three lines). -/
structure Turn where
  role : String
  text : Option String
deriving Repr, DecidableEq

/-! ## JavaScript string primitives used by the source -/

/-- JS `\s` character class (whitespace as matched by the regexes in the
source): ASCII whitespace plus the Unicode space separators, line/paragraph
separators, NBSP, and the BOM. -/
def isJsSpace (c : Char) : Bool :=
  c = ' ' || c = '\t' || c = '\n' || c = '\x0b' || c = '\x0c' || c = '\r' ||
  c.val = 0xa0 || c.val = 0x1680 || (0x2000 ≤ c.val && c.val ≤ 0x200a) ||
  c.val = 0x2028 || c.val = 0x2029 || c.val = 0x202f || c.val = 0x205f ||
  c.val = 0x3000 || c.val = 0xfeff

/-- JS `s.split("\n")`, accumulator `cur` holds the current field reversed. -/
def jsSplitNlAux : List Char → List Char → List String
  | [], cur => [String.mk cur.reverse]
  | c :: cs, cur =>
    if c = '\n' then String.mk cur.reverse :: jsSplitNlAux cs []
    else jsSplitNlAux cs (c :: cur)

/-- JS `s.split("\n")` (single-character separator, so JS and naive splitting
agree; `"".split("\n")` is `[""]`). -/
def jsSplitNl (s : String) : List String :=
  jsSplitNlAux s.data []

/-- JS `s.startsWith(p)`. -/
def jsStartsWith (s p : String) : Bool :=
  p.data.isPrefixOf s.data

/-- JS `s.substring(0, n)`. -/
def jsSubstring0 (s : String) (n : Nat) : String :=
  String.mk (s.data.take n)

/-- Match the regex `/<@\d+>\s*/` at the head of the character list; on
success return the suffix after the match (`\d+` and `\s*` are greedy, which
for digits-then-`>` and a trailing `\s*` is exactly take/drop-while). -/
def matchMentionWs : List Char → Option (List Char)
  | '<' :: '@' :: rest =>
    let ds := rest.takeWhile Char.isDigit
    if ds.isEmpty then none
    else
      match rest.dropWhile Char.isDigit with
      | '>' :: tail => some (tail.dropWhile isJsSpace)
      | _ => none
  | _ => none

/-- JS `content.replace(/<@\d+>\s*/, "")` on the underlying characters: remove
the leftmost match of the pattern, leave everything else unchanged. -/
def removeFirstMentionWs : List Char → List Char
  | [] => []
  | c :: cs =>
    match matchMentionWs (c :: cs) with
    | some rest => rest
    | none => c :: removeFirstMentionWs cs

/-- JS `content.replace(/<@\d+>\s*/, "")` (source line 261). -/
def replaceFirstMention (s : String) : String :=
  String.mk (removeFirstMentionWs s.data)

/-- Whether `/<@\d+>\s*/` matches anywhere in the character list. -/
def containsMentionWs : List Char → Bool
  | [] => false
  | c :: cs =>
    match matchMentionWs (c :: cs) with
    | some _ => true
    | none => containsMentionWs cs

/-- Consume the optional `&` of the regex `/<@&?\d+>/`: given the characters
after `<@`, return the matched literal so far and the remaining characters. -/
def pingAmp : List Char → String × List Char
  | '&' :: r => ("<@&", r)
  | r => ("<@", r)

theorem pingAmp_snd_le (l : List Char) : (pingAmp l).2.length ≤ l.length := by
  unfold pingAmp
  split <;> simp

/-- After the literal `<@` of `/<@&?\d+>/`: optional `&`, then one or more
digits, then `>`; on success return the matched token and the suffix after it. -/
def matchPingBody (rest : List Char) : Option (String × List Char) :=
  let pr := pingAmp rest
  let ds := pr.2.takeWhile Char.isDigit
  if ds.isEmpty then none
  else
    match pr.2.dropWhile Char.isDigit with
    | '>' :: tail => some (pr.1 ++ String.mk ds ++ ">", tail)
    | _ => none

/-- Match the regex `/<@&?\d+>/` at the head of the character list; on success
return the matched token and the suffix after it.  (When `&` is present but no
digits follow, JS backtracks to the empty `&?` alternative, which then fails on
the `&` character as well, so the direct reading below is equivalent.) -/
def matchPing : List Char → Option (String × List Char)
  | a :: b :: rest =>
    if a = '<' ∧ b = '@' then matchPingBody rest else none
  | _ => none

theorem matchPingBody_rest_lt (rest : List Char) (p : String × List Char)
    (h : matchPingBody rest = some p) : p.2.length < rest.length := by
  simp only [matchPingBody] at h
  split at h
  · exact absurd h (by simp)
  · split at h
    next tail heq =>
      injection h with h
      subst h
      have h1 : ((pingAmp rest).2.dropWhile Char.isDigit).length ≤
          (pingAmp rest).2.length := (List.dropWhile_sublist Char.isDigit).length_le
      have h2 := congrArg List.length heq
      have h3 := pingAmp_snd_le rest
      simp only [List.length_cons] at h2
      show tail.length < rest.length
      omega
    · exact absurd h (by simp)

theorem matchPing_rest_lt (l : List Char) (p : String × List Char)
    (h : matchPing l = some p) : p.2.length < l.length := by
  match l with
  | [] => simp [matchPing] at h
  | [a] => simp [matchPing] at h
  | a :: b :: rest =>
    simp only [matchPing] at h
    split at h
    · have := matchPingBody_rest_lt rest p h
      simp only [List.length_cons]
      omega
    · exact absurd h (by simp)

/-- One pass of the global scan `regex.exec` loop for `/<@&?\d+>/g`: collect
all matches left to right, resuming after each match.  Structural fuel (one
unit per character examined) keeps the definition kernel-computable; `fuel ≥
length` always suffices because every step strictly shortens the list. -/
def findPingsGo : Nat → List Char → List String
  | 0, _ => []
  | _ + 1, [] => []
  | fuel + 1, c :: cs =>
    match matchPing (c :: cs) with
    | some p => p.1 :: findPingsGo fuel p.2
    | none => findPingsGo fuel cs

/-- All matches of `/<@&?\d+>/g` in the string, in order (source line 100). -/
def findPings (l : List Char) : List String :=
  findPingsGo l.length l

/-! ## Error/response formatter (`handleGeminiError`, `handleResponse`) -/

/-- One entry of the `errorResponses` table in `handleGeminiError`
(source lines 28-60). -/
structure ErrorNotice where
  title : String
  description : String
  color : String
  quotaError : Bool
deriving Repr, DecidableEq

/-- The error-message key of the quota (429) entry, the only entry flagged
`quotaError: true` (source line 39). -/
def quotaSig : String :=
  "[GoogleGenerativeAI Error]: Error fetching from https://generativelanguage.googleapis.com/v1beta/models/gemini-1.5-pro-latest:generateContent: [429 Too Many Requests] Resource has been exhausted (e.g. check quota)."

def safetySig : String :=
  "[GoogleGenerativeAI Error]: Candidate was blocked due to SAFETY"

def locationSig : String :=
  "[GoogleGenerativeAI Error]: Error fetching from https://generativelanguage.googleapis.com/v1beta/models/gemini-1.5-pro-latest:generateContent: [400 Bad Request] User location is not supported for the API use."

def emptyMsgSig : String :=
  "Cannot send an empty message"

def internalSig : String :=
  "[GoogleGenerativeAI Error]: Error fetching from https://generativelanguage.googleapis.com/v1beta/models/gemini-1.5-pro-latest:generateContent: [500 Internal Server Error] An internal error has occurred. Please retry or report in https://developers.generativeai.google/guide/troubleshooting"

/-- The lookup `errorResponses[err.message] || errorResponses.default`
(source line 62), rendered as a decision chain over the five known signature
keys.  (Property-inherited keys of the JS object such as `"toString"` select a
truthy non-notice value in JS; they still take the single-edit, no-signal path,
which is all any theorem below relies on for unmatched messages.) -/
def errorResponses (errMessage : String) : ErrorNotice :=
  if errMessage = safetySig then
    ⟨"⚠️ An Error Occurred",
     "> *The response was blocked due to **SAFETY**.* \n- *Result based on your input. Safety Blocking may not be 100% correct.*",
     "Red", false⟩
  else if errMessage = locationSig then
    ⟨"⚠️ An Error Occurred",
     "> *The user location is not supported for Gemini API use. Please contact the Developers.*",
     "Red", false⟩
  else if errMessage = quotaSig then
    ⟨"⚠️ An Error Occurred",
     "There are a lot of requests at the moment. Please try again later, or in a few minutes. \n▸ *If this issue persists after a few minutes, please contact the Developers.* \n - *We are aware of these issues and apologize for the inconvenience.* \n> - Token Limit for this minute has been reached.",
     "Red", true⟩
  else if errMessage = emptyMsgSig then
    ⟨"⚠️ An Error Occurred",
     "An error occurred while processing your request. Please try again later, or in a few minutes. \n▸ *If this issue persists, please contact the Developers.* \n> - Generated response may be too long. *(Fix this by specifying for the generated response to be smaller, e.g. 10 Lines)*\n> - Token Limit for this minute may have been reached.",
     "Red", false⟩
  else if errMessage = internalSig then
    ⟨"⚠️ An Error Occurred",
     "An error occurred while processing your request. This error originated from Google's side, not ours.  \n▸ *If this issue persists, please contact the Developers.* \n> - Please retry and make another request.",
     "Red", false⟩
  else
    ⟨"⚠️ An Error Occurred",
     "An unknown error occurred while processing your request. Please try again later, or in a few minutes. \n▸ *If this issue persists, please contact the Developers.*\n> - Token Limit for this minute may have been reached.",
     "Red", false⟩

/-- One `loadingMsg.edit({ embeds: [embed] })` call performed by
`handleGeminiError`, recorded as the embed's visible fields. -/
structure EmbedEdit where
  title : String
  description : String
  color : String
  footerText : Option String
deriving Repr, DecidableEq

/-- The countdown footers `⏱️ Retrying request in (i)` for i = 10, 9, ..., 1
(source lines 69-73). -/
def countdownFooters : List String :=
  (List.range 10).map (fun k => "⏱️ Retrying request in (" ++ toString (10 - k) ++ ")")

/-- `handleGeminiError(err, loadingMsg)` (source lines 27-78): look up the
notice for `err.message`; if it is the quota entry, perform ten countdown
edits and return `"quota_error"`, otherwise perform one edit and return
nothing.  The result records the sequence of edits made to the loading message
and the JS return value (`none` models `undefined`). -/
def handleGeminiError (errMessage : String) : List EmbedEdit × Option String :=
  let er := errorResponses errMessage
  if er.quotaError then
    (countdownFooters.map (fun f => ⟨er.title, er.description, er.color, some f⟩),
     some "quota_error")
  else
    ([⟨er.title, er.description, er.color, none⟩], none)

/-- The fixed truncation notice appended by `handleResponse`
(source line 97, everything after `substring(0, 1936)`). -/
def truncationSuffix : String :=
  "... \n\n*Response was cut short due to Discord's character limit of 2000*"

/-- The truncation step of `handleResponse` (source lines 96-98): text longer
than 2000 units is replaced by its first 1936 units plus the fixed notice. -/
def formatResponseText (responseText : String) : String :=
  if responseText.length > 2000 then jsSubstring0 responseText 1936 ++ truncationSuffix
  else responseText

/-- Outcome of `handleResponse`: either the mention-mismatch notice replaces
the loading message (`pingError`), or the loading message is edited to carry
the (possibly truncated) response text (`sent`). -/
inductive HandleOutcome where
  | pingError
  | sent (content : String)
deriving Repr, DecidableEq

/-- The JS mention of the requester, `` `<@${id}>` `` (source line 106). -/
def requesterMention (requesterId : String) : String :=
  "<@" ++ requesterId ++ ">"

/-- `handleResponse` (source lines 91-117), after the model call: truncate the
response text if needed, then scan the (truncated) text with `/<@&?\d+>/g`;
if some match differs from the requester's mention, edit in the ping-error
notice and stop; otherwise edit in the text.  `requesterId` models
`message?.author?.id || interaction.user.id`. -/
def handleResponse (responseText : String) (requesterId : String) : HandleOutcome :=
  let t := formatResponseText responseText
  match (findPings t.data).find? (fun m => m ≠ requesterMention requesterId) with
  | some _ => .pingError
  | none => .sent t

/-! ## API-key check (`checkGeminiApiKey`) -/

/-- `checkGeminiApiKey(Gemini_API_KEY, ...)` (source lines 168-179): `true`
means the key failed the check `!Gemini_API_KEY || Gemini_API_KEY.length < 4`,
in which case the function replies with the invalid-key notice and returns
that (truthy) reply; `false` means it falls through (returns `undefined`).
`none` models an absent (`undefined`/`null`) key, and `k = ""` models the
falsiness of the empty string. -/
def checkGeminiApiKey (key : Option String) : Bool :=
  match key with
  | none => true
  | some k => k = "" || k.length < 4

/-! ## Validity gate and thread reconstruction -/

/-- The recognized footer-prefix strings (source line 196). -/
def startStrings : List String :=
  ["Response to message by", "A message has been deleted", "Reply thread history"]

/-- The footer marker that identifies a rendered context-menu answer
(source line 265 and the first entry of `startStrings`). -/
def responseToMarker : String :=
  "Response to message by"

/-- `!embeds[0].footer || !embeds[0].footer.text || !startStrings.some(...)`
negated: whether the first embed's footer text starts with a recognized
prefix.  A missing footer/text (and the falsy empty string, which starts with
none of the nonempty prefixes) yields `false`. -/
def footerStartsOk (ss : List String) (e : MsgEmbed) : Bool :=
  match e.footerText with
  | none => false
  | some t => ss.any (fun p => jsStartsWith t p)

/-- `isInvalidOriginalMessage(originalMessage, linkRegex, startStrings)`
(source lines 225-236).  In the source the comparison on line 227 reads
`message.client.user.id`, but no `message` is bound in that function's scope or
in the module: calling it as written throws a `ReferenceError` (the defect is
also recorded in the repository spec).  `botId` here denotes the value that
expression was evidently meant to produce — the bot's own user id, which is
what `message.client.user.id` evaluates to for the enclosing
`fetchThreadMessages`'s `message`.  `linkTest` models `linkRegex.test`. -/
def isInvalidOriginalMessage (botId : Nat) (originalMessage : Msg)
    (linkTest : String → Bool) (ss : List String) : Bool :=
  (originalMessage.authorId != botId) ||
  (match originalMessage.embeds with
   | [] => false
   | e :: _ => !footerStartsOk ss e && !linkTest originalMessage.content)

/-- The loop guard's stopping condition (source lines 250-254): the cursor is
a bot message carrying at least one embed whose raw content does not match the
link pattern. -/
def stopCond (botId : Nat) (linkTest : String → Bool) (cur : Msg) : Bool :=
  cur.authorId == botId && !cur.embeds.isEmpty && !linkTest cur.content

/-- The turns prepended for one fetched message `m` (source lines 257-273), in
the order in which they sit at the front of the accumulator afterwards:
- a non-bot author yields one `user` turn with the first `/<@\d+>\s*/` match
  removed from the content;
- a bot author whose first embed's footer starts with
  `"Response to message by"` yields a synthesized `user` turn holding line
  index 2 of the footer split on `"\n"` (JS `undefined`, i.e. `none`, when the
  footer has fewer than three lines) followed by the `model` turn, both
  prepended via two `unshift` calls before `continue`;
- any other bot author yields one `model` turn with the raw content. -/
def stepTurns (botId : Nat) (m : Msg) : List Turn :=
  if m.authorId == botId then
    match m.embeds with
    | e :: _ =>
      match e.footerText with
      | some ft =>
        if jsStartsWith ft responseToMarker then
          [⟨"user", (jsSplitNl ft)[2]?⟩, ⟨"model", some m.content⟩]
        else [⟨"model", some m.content⟩]
      | none => [⟨"model", some m.content⟩]
    | [] => [⟨"model", some m.content⟩]
  else
    [⟨"user", some (replaceFirstMention m.content)⟩]

/-- Result of the backward walk of `getThreadMessages`. -/
inductive WalkResult where
  | ok (turns : List Turn)
  | notFound
  | fuelOut
deriving Repr, DecidableEq

/-- The `while` loop of `getThreadMessages` (source lines 248-274): while the
cursor has a reply reference and the stopping condition does not hold, fetch
the referenced message, prepend its turn(s), and advance the cursor to it.
`notFound` models the `DiscordAPIError` 10008 thrown by a failed fetch. -/
def getThreadMessagesGo (botId : Nat) (linkTest : String → Bool)
    (fetch : Nat → Option Msg) : Nat → Msg → List Turn → WalkResult
  | 0, _, _ => .fuelOut
  | fuel + 1, cur, acc =>
    match cur.reference with
    | none => .ok acc
    | some rid =>
      if stopCond botId linkTest cur then .ok acc
      else
        match fetch rid with
        | none => .notFound
        | some m => getThreadMessagesGo botId linkTest fetch fuel m (stepTurns botId m ++ acc)

/-- `getThreadMessages(message, linkRegex)` (source lines 244-277): walk the
reply chain backward from `message`, accumulating turns at the front of an
initially empty array. -/
def getThreadMessages (botId : Nat) (linkTest : String → Bool)
    (fetch : Nat → Option Msg) (fuel : Nat) (message : Msg) : WalkResult :=
  getThreadMessagesGo botId linkTest fetch fuel message []

/-- The sequence of messages fetched by the walk, in walk order (the reply
chain read backward, newest first); `none` when the walk fails or runs out of
fuel.  This is specification scaffolding for relating the walk's output to
the chain it traversed; it mirrors `getThreadMessagesGo` step for step. -/
def walkGo (botId : Nat) (linkTest : String → Bool)
    (fetch : Nat → Option Msg) : Nat → Msg → Option (List Msg)
  | 0, _ => none
  | fuel + 1, cur =>
    match cur.reference with
    | none => some []
    | some rid =>
      if stopCond botId linkTest cur then some []
      else
        match fetch rid with
        | none => none
        | some m => (walkGo botId linkTest fetch fuel m).map (m :: ·)

/-- The value of `fetchThreadMessages` when it returns an object: the
`userQuestion`, `threadMessages` and `messageDeleted` fields (each `none`
models JS `null`/`undefined`). -/
structure FetchedThread where
  userQuestion : Option String
  threadMessages : Option (List Turn)
  messageDeleted : Option String
deriving Repr, DecidableEq

/-- Outcome of `fetchThreadMessages`. -/
inductive FetchOutcome where
  /-- The key failed `checkGeminiApiKey`: the invalid-key notice was sent as a
  reply and the function returned `undefined` without touching the channel. -/
  | invalidKey
  /-- An error other than `DiscordAPIError` 10008 escaped the `catch` and was
  rethrown (in the source this happens e.g. when `message.reference` is null
  and reading `.messageId` of it throws a `TypeError`). -/
  | thrown
  /-- The walk ran out of fuel (models the unbounded loop not returning). -/
  | fuelOut
  /-- A `{ userQuestion, threadMessages, messageDeleted }` object. -/
  | ok (r : FetchedThread)
deriving Repr, DecidableEq

/-- `fetchThreadMessages(Gemini_API_KEY, message)` (source lines 187-216) in
its INTENDED semantics: check the API key; fetch the referenced message; gate
it through `isInvalidOriginalMessage`; when the referenced message is the
bot's, rebuild the thread with `getThreadMessages`; a `DiscordAPIError` 10008
anywhere in the `try` block resets `threadMessages` to `[]` and sets
`messageDeleted = "threadDeleted"`.  `botId` models `message.client.user.id`.
This definition gives the gate its documented body value; in the source as
written the gate call itself throws (see `isInvalidOriginalMessage`), so every
branch from the gate onward is unreachable there —
`fetchThreadMessagesActual` below models that as-written behavior. -/
def fetchThreadMessages (key : Option String) (message : Msg) (botId : Nat)
    (linkTest : String → Bool) (fetch : Nat → Option Msg) (fuel : Nat) : FetchOutcome :=
  if checkGeminiApiKey key then .invalidKey
  else
    match message.reference with
    | none => .thrown
    | some rid =>
      match fetch rid with
      | none => .ok ⟨some message.content, some [], some "threadDeleted"⟩
      | some originalMessage =>
        if isInvalidOriginalMessage botId originalMessage linkTest startStrings then
          .ok ⟨none, none, some "threadDeleted"⟩
        else if originalMessage.authorId == botId then
          match getThreadMessages botId linkTest fetch fuel message with
          | .ok l => .ok ⟨some message.content, some l, none⟩
          | .notFound => .ok ⟨some message.content, some [], some "threadDeleted"⟩
          | .fuelOut => .fuelOut
        else
          .ok ⟨some message.content, some [], none⟩

/-- `fetchThreadMessages` as the source actually executes (the as-written
semantics): after the key check, a missing `message.reference` throws a
`TypeError`, a failed fetch of the referenced message (thrown at line 195,
before the gate) takes the `catch` and returns the reset object — and when
that fetch succeeds, the very call to `isInvalidOriginalMessage` at line 199
throws a `ReferenceError` (its `message` identifier is unbound), which the
`catch` at line 207 rethrows since it is not a `DiscordAPIError` with code
10008.  The gate result, the walk, and every later branch are therefore
unreachable as written; no `botId`, link test or fuel is ever consulted. -/
def fetchThreadMessagesActual (key : Option String) (message : Msg)
    (fetch : Nat → Option Msg) : FetchOutcome :=
  if checkGeminiApiKey key then .invalidKey
  else
    match message.reference with
    | none => .thrown
    | some rid =>
      match fetch rid with
      | none => .ok ⟨some message.content, some [], some "threadDeleted"⟩
      | some _ => .thrown

/-! ## Helper lemmas -/

theorem stringMk_data (l : List Char) : (String.mk l).data = l := rfl

theorem stringMk_length (l : List Char) : (String.mk l).length = l.length := rfl

theorem stringMk_append (l m : List Char) :
    String.mk l ++ String.mk m = String.mk (l ++ m) := rfl

theorem matchPing_none_of_ne (c : Char) (hc : c ≠ '<') (cs : List Char) :
    matchPing (c :: cs) = none := by
  cases cs with
  | nil => rfl
  | cons b rest => simp [matchPing, hc]

theorem findPingsGo_nil (fuel : Nat) : findPingsGo fuel [] = [] := by
  cases fuel <;> rfl

/-- Characters that are not `<` are skipped by the global ping scan. -/
theorem findPingsGo_append_no_lt (pre : List Char) (hpre : ∀ c ∈ pre, c ≠ '<') :
    ∀ fuel l, findPingsGo (pre.length + fuel) (pre ++ l) = findPingsGo fuel l := by
  induction pre with
  | nil => intro fuel l; simp
  | cons c cs ih =>
    intro fuel l
    have hc : c ≠ '<' := hpre c (by simp)
    have hmp : matchPing (c :: (cs ++ l)) = none := matchPing_none_of_ne c hc _
    have harith : (c :: cs).length + fuel = cs.length + fuel + 1 := by
      simp only [List.length_cons]; omega
    rw [harith]
    show findPingsGo (cs.length + fuel + 1) (c :: (cs ++ l)) = findPingsGo fuel l
    rw [findPingsGo, hmp]
    exact ih (fun x hx => hpre x (by simp [hx])) fuel l

theorem findPings_replicate_a (n : Nat) (l : List Char) :
    findPings (List.replicate n 'a' ++ l) = findPingsGo l.length l := by
  unfold findPings
  have h1 : (List.replicate n 'a' ++ l).length = (List.replicate n 'a').length + l.length := by
    simp
  rw [h1]
  exact findPingsGo_append_no_lt (List.replicate n 'a')
    (fun c hc => by have h := List.eq_of_mem_replicate hc; subst h; decide) l.length l

/-! ## C7: response truncation -/

/-- C7: `handleResponse` leaves response text of length at most 2000 unchanged;
text longer than 2000 becomes exactly its first 1936 characters followed by
the fixed truncation suffix (and whatever `handleResponse` sends is exactly
this formatted text). -/
theorem handleResponse_truncation (s : String) (rid : String) :
    (s.length ≤ 2000 → formatResponseText s = s) ∧
    (s.length > 2000 →
      formatResponseText s = jsSubstring0 s 1936 ++ truncationSuffix ∧
      (formatResponseText s).data = s.data.take 1936 ++ truncationSuffix.data ∧
      (formatResponseText s).length = 1936 + truncationSuffix.length) ∧
    (handleResponse s rid = .pingError ∨ handleResponse s rid = .sent (formatResponseText s)) := by
  refine ⟨fun h => ?_, fun h => ?_, ?_⟩
  · unfold formatResponseText
    rw [if_neg (by omega)]
  · have he : formatResponseText s = jsSubstring0 s 1936 ++ truncationSuffix := by
      unfold formatResponseText
      rw [if_pos (by omega)]
    refine ⟨he, ?_, ?_⟩
    · rw [he]; rfl
    · rw [he]
      show (s.data.take 1936 ++ truncationSuffix.data).length = 1936 + truncationSuffix.length
      have : s.data.length = s.length := rfl
      simp [List.length_take]
      omega
  · cases hf : (findPings (formatResponseText s).data).find?
        (fun m => m ≠ requesterMention rid) with
    | none =>
      right
      show (match (findPings (formatResponseText s).data).find?
          (fun m => m ≠ requesterMention rid) with
        | some _ => HandleOutcome.pingError
        | none => HandleOutcome.sent (formatResponseText s)) =
        HandleOutcome.sent (formatResponseText s)
      rw [hf]
    | some x =>
      left
      show (match (findPings (formatResponseText s).data).find?
          (fun m => m ≠ requesterMention rid) with
        | some _ => HandleOutcome.pingError
        | none => HandleOutcome.sent (formatResponseText s)) =
        HandleOutcome.pingError
      rw [hf]

/-- Witness for C7 at the claim's concrete inputs: a 2500-character text is
formatted to exactly 1936 original characters plus the fixed suffix (total
length 2007), and a text of length at most 2000 is unchanged. -/
theorem handleResponse_truncation_witness :
    formatResponseText (String.mk (List.replicate 2500 'a')) =
      String.mk (List.replicate 1936 'a') ++ truncationSuffix ∧
    (formatResponseText (String.mk (List.replicate 2500 'a'))).length = 2007 ∧
    formatResponseText (String.mk (List.replicate 1999 'b')) = String.mk (List.replicate 1999 'b') := by
  have hlen : (String.mk (List.replicate 2500 'a')).length = 2500 := by
    rw [stringMk_length, List.length_replicate]
  have h := handleResponse_truncation (String.mk (List.replicate 2500 'a')) "456"
  have h1 := h.2.1 (by omega)
  have hshort := (handleResponse_truncation (String.mk (List.replicate 1999 'b')) "456").1
    (by rw [stringMk_length, List.length_replicate]; omega)
  refine ⟨?_, ?_, hshort⟩
  · rw [h1.1]
    unfold jsSubstring0
    rw [stringMk_data, List.take_replicate]
    norm_num
  · rw [h1.2.2]
    decide

/-! ## C8: quota countdown -/

theorem errorResponses_quotaError_false {m : String} (hm : m ≠ quotaSig) :
    (errorResponses m).quotaError = false := by
  unfold errorResponses
  split_ifs <;> rfl

/-- C8: an error whose message is exactly the quota signature produces exactly
ten countdown edits with footers counting 10 down to 1 and returns the quota
signal; any other error message produces a single notice edit and no signal. -/
theorem handleGeminiError_quota_countdown (m : String) :
    (m = quotaSig →
      (handleGeminiError m).1.map EmbedEdit.footerText =
        [some "⏱️ Retrying request in (10)", some "⏱️ Retrying request in (9)",
         some "⏱️ Retrying request in (8)", some "⏱️ Retrying request in (7)",
         some "⏱️ Retrying request in (6)", some "⏱️ Retrying request in (5)",
         some "⏱️ Retrying request in (4)", some "⏱️ Retrying request in (3)",
         some "⏱️ Retrying request in (2)", some "⏱️ Retrying request in (1)"] ∧
      (handleGeminiError m).1.length = 10 ∧
      (handleGeminiError m).2 = some "quota_error") ∧
    (m ≠ quotaSig →
      (handleGeminiError m).1.length = 1 ∧
      (handleGeminiError m).2 = none) := by
  constructor
  · rintro rfl
    refine ⟨?_, ?_, ?_⟩ <;> decide
  · intro hm
    have hq : (errorResponses m).quotaError = false := errorResponses_quotaError_false hm
    simp only [handleGeminiError, hq, Bool.false_eq_true, if_false]
    exact ⟨by simp, trivial⟩

/-- Witness for C8: the quota signature itself takes the ten-edit countdown
path, and a message matching no table entry takes the single-edit path. -/
theorem handleGeminiError_quota_countdown_witness :
    (handleGeminiError quotaSig).1.length = 10 ∧
    (handleGeminiError quotaSig).2 = some "quota_error" ∧
    (handleGeminiError "boom").1.length = 1 ∧
    (handleGeminiError "boom").2 = none := by
  have h1 := (handleGeminiError_quota_countdown quotaSig).1 rfl
  have h2 := (handleGeminiError_quota_countdown "boom").2 (by decide)
  exact ⟨h1.2.1, h1.2.2, h2.1, h2.2⟩

/-! ## C10: API-key gate -/

theorem fetchThreadMessages_ne_invalidKey {key : Option String} (message : Msg)
    (botId : Nat) (linkTest : String → Bool) (fetch : Nat → Option Msg) (fuel : Nat)
    (hchk : checkGeminiApiKey key = false) :
    fetchThreadMessages key message botId linkTest fetch fuel ≠ .invalidKey := by
  unfold fetchThreadMessages
  rw [hchk]
  simp only [Bool.false_eq_true, if_false]
  split
  · simp
  · split
    · simp
    · split
      · simp
      · split
        · split <;> simp
        · simp

/-- C10: an absent key, or a key shorter than four characters, makes
`fetchThreadMessages` return at the key check (after replying with the
invalid-key notice), whatever the channel contains — no referenced message is
consulted; a key of length at least four passes the check and the key check
never produces the early return. -/
theorem fetchThreadMessages_invalidKey (key : Option String) (message : Msg)
    (botId : Nat) (linkTest : String → Bool) (fetch : Nat → Option Msg) (fuel : Nat) :
    ((key = none ∨ ∃ k, key = some k ∧ k.length < 4) →
      fetchThreadMessages key message botId linkTest fetch fuel = .invalidKey) ∧
    (∀ k, key = some k → 4 ≤ k.length →
      checkGeminiApiKey key = false ∧
      fetchThreadMessages key message botId linkTest fetch fuel ≠ .invalidKey) := by
  constructor
  · rintro (rfl | ⟨k, rfl, hk⟩)
    · rfl
    · have hc : checkGeminiApiKey (some k) = true := by
        unfold checkGeminiApiKey
        simp only [Bool.or_eq_true, decide_eq_true_eq]
        right
        exact hk
      unfold fetchThreadMessages
      rw [hc]
      rfl
  · rintro k rfl hk
    have hne : k ≠ "" := by
      intro h
      subst h
      simp [String.length] at hk
    have hchk : checkGeminiApiKey (some k) = false := by
      unfold checkGeminiApiKey
      simp only [Bool.or_eq_false_iff, decide_eq_false_iff_not]
      exact ⟨hne, by omega⟩
    exact ⟨hchk, fetchThreadMessages_ne_invalidKey message botId linkTest fetch fuel hchk⟩

/-- Witness for C10: an absent key and the too-short key `"abc"` both take the
invalid-key early return on a concrete message, while `"abcd"` passes the
check. -/
theorem fetchThreadMessages_invalidKey_witness :
    fetchThreadMessages none ⟨7, "q", some 2, [], 30⟩ 1 (fun _ => false) (fun _ => none) 5 =
      .invalidKey ∧
    fetchThreadMessages (some "abc") ⟨7, "q", some 2, [], 30⟩ 1 (fun _ => false) (fun _ => none) 5 =
      .invalidKey ∧
    checkGeminiApiKey (some "abcd") = false := by
  refine ⟨?_, ?_, ?_⟩
  · exact (fetchThreadMessages_invalidKey none ⟨7, "q", some 2, [], 30⟩ 1
      (fun _ => false) (fun _ => none) 5).1 (Or.inl rfl)
  · exact (fetchThreadMessages_invalidKey (some "abc") ⟨7, "q", some 2, [], 30⟩ 1
      (fun _ => false) (fun _ => none) 5).1 (Or.inr ⟨"abc", rfl, by decide⟩)
  · exact ((fetchThreadMessages_invalidKey (some "abcd") ⟨7, "q", some 2, [], 30⟩ 1
      (fun _ => false) (fun _ => none) 5).2 "abcd" rfl (by decide)).1

/-! ## C6: mention scan -/

theorem findPings_eq_nil_of_no_lt (l : List Char) (h : ∀ c ∈ l, c ≠ '<') :
    findPings l = [] := by
  unfold findPings
  have h0 := findPingsGo_append_no_lt l h 0 []
  simpa using h0

theorem handleResponse_eq (s rid : String) :
    handleResponse s rid =
      match (findPings (formatResponseText s).data).find?
          (fun m => m ≠ requesterMention rid) with
        | some _ => HandleOutcome.pingError
        | none => HandleOutcome.sent (formatResponseText s) := rfl

/-- C6 (amended): the mention scan runs on the text `handleResponse` actually
sends, i.e. after truncation; whenever that scanned text contains a
mention-like token `/<@&?\d+>/` differing from the requester's mention, the
whole response is rejected: the loading message gets the ping-error notice and
the text is never sent.  (Tokens destroyed by the 2000-character truncation
escape the scan; see the counterexample.) -/
theorem handleResponse_rejects_foreign_mention (s rid tok : String)
    (htok : tok ∈ findPings (formatResponseText s).data)
    (hne : tok ≠ requesterMention rid) :
    handleResponse s rid = .pingError := by
  have hsome : ((findPings (formatResponseText s).data).find?
      (fun m => m ≠ requesterMention rid)).isSome := by
    rw [List.find?_isSome]
    exact ⟨tok, htok, by simp [hne]⟩
  obtain ⟨x, hx⟩ := Option.isSome_iff_exists.mp hsome
  show (match (findPings (formatResponseText s).data).find?
      (fun m => m ≠ requesterMention rid) with
    | some _ => HandleOutcome.pingError
    | none => HandleOutcome.sent (formatResponseText s)) = HandleOutcome.pingError
  rw [hx]

/-- Witness for the amended C6 at the claim's own instance: requester id 456,
short response containing `<@123>` — rejected. -/
theorem handleResponse_rejects_foreign_mention_witness :
    handleResponse "hello <@123>" "456" = .pingError :=
  handleResponse_rejects_foreign_mention "hello <@123>" "456" "<@123>" (by decide) (by decide)

/-- A 2500-character response text whose only mention-like token (`<@123>`,
foreign to requester 456) sits beyond index 1936. -/
def c6Text : String := String.mk (List.replicate 2494 'a' ++ ("<@123>").data)

/-- Counterexample to C6 as stated: this response text does contain the
mention-like token `<@123>`, which is not requester 456's mention, yet
`handleResponse` does not reject it — truncation removes the token before the
scan, and the truncated text is sent. -/
theorem handleResponse_foreign_mention_counterexample :
    "<@123>" ∈ findPings c6Text.data ∧
    "<@123>" ≠ requesterMention "456" ∧
    handleResponse c6Text "456" =
      .sent (String.mk (List.replicate 1936 'a') ++ truncationSuffix) := by
  refine ⟨?_, by decide, ?_⟩
  · show "<@123>" ∈ findPings (List.replicate 2494 'a' ++ ("<@123>").data)
    rw [findPings_replicate_a]
    decide
  · have hlen : c6Text.length = 2500 := by
      show (List.replicate 2494 'a' ++ ("<@123>").data).length = 2500
      rw [List.length_append, List.length_replicate]
      decide
    have hfmt : formatResponseText c6Text =
        String.mk (List.replicate 1936 'a') ++ truncationSuffix := by
      unfold formatResponseText
      rw [if_pos (by omega)]
      unfold jsSubstring0
      rw [show c6Text.data = List.replicate 2494 'a' ++ ("<@123>").data from rfl,
        List.take_append_of_le_length (by simp), List.take_replicate]
      norm_num
    have hdata : (formatResponseText c6Text).data =
        List.replicate 1936 'a' ++ truncationSuffix.data := by
      rw [hfmt]; rfl
    have hnone : findPings (formatResponseText c6Text).data = [] := by
      rw [hdata]
      refine findPings_eq_nil_of_no_lt _ (fun c hc => ?_)
      rcases List.mem_append.mp hc with h | h
      · have := List.eq_of_mem_replicate h; subst this; decide
      · have hall : ∀ x ∈ truncationSuffix.data, x ≠ '<' := by decide
        exact hall c h
    rw [handleResponse_eq, hnone, hfmt]
    rfl

/-! ## Walk structure lemmas -/

theorem gtmGo_ref_none (botId : Nat) (linkTest : String → Bool) (fetch : Nat → Option Msg)
    (fuel : Nat) (cur : Msg) (acc : List Turn) (h : cur.reference = none) :
    getThreadMessagesGo botId linkTest fetch (fuel + 1) cur acc = .ok acc := by
  rw [getThreadMessagesGo, h]

theorem gtmGo_step (botId : Nat) (linkTest : String → Bool) (fetch : Nat → Option Msg)
    (fuel : Nat) (cur : Msg) (acc : List Turn) (rid : Nat) (h : cur.reference = some rid) :
    getThreadMessagesGo botId linkTest fetch (fuel + 1) cur acc =
      (if stopCond botId linkTest cur then .ok acc
       else
         match fetch rid with
         | none => .notFound
         | some m => getThreadMessagesGo botId linkTest fetch fuel m (stepTurns botId m ++ acc)) := by
  rw [getThreadMessagesGo, h]

theorem walkGo_ref_none (botId : Nat) (linkTest : String → Bool) (fetch : Nat → Option Msg)
    (fuel : Nat) (cur : Msg) (h : cur.reference = none) :
    walkGo botId linkTest fetch (fuel + 1) cur = some [] := by
  rw [walkGo, h]

theorem walkGo_step (botId : Nat) (linkTest : String → Bool) (fetch : Nat → Option Msg)
    (fuel : Nat) (cur : Msg) (rid : Nat) (h : cur.reference = some rid) :
    walkGo botId linkTest fetch (fuel + 1) cur =
      (if stopCond botId linkTest cur then some []
       else
         match fetch rid with
         | none => none
         | some m => (walkGo botId linkTest fetch fuel m).map (m :: ·)) := by
  rw [walkGo, h]

/-- Structure of a successful walk: the output is the per-message turn groups
of the walked messages, concatenated in reverse walk order (hence oldest
first), in front of the initial accumulator. -/
theorem getThreadMessagesGo_ok_structure (botId : Nat) (linkTest : String → Bool)
    (fetch : Nat → Option Msg) :
    ∀ (fuel : Nat) (cur : Msg) (acc l : List Turn),
      getThreadMessagesGo botId linkTest fetch fuel cur acc = .ok l →
      ∃ ms, walkGo botId linkTest fetch fuel cur = some ms ∧
        l = ((ms.map (stepTurns botId)).reverse).flatten ++ acc := by
  intro fuel
  induction fuel with
  | zero =>
    intro cur acc l h
    exact absurd h (by simp [getThreadMessagesGo])
  | succ fuel ih =>
    intro cur acc l h
    cases href : cur.reference with
    | none =>
      rw [gtmGo_ref_none botId linkTest fetch fuel cur acc href] at h
      injection h with h
      subst h
      exact ⟨[], walkGo_ref_none botId linkTest fetch fuel cur href, by simp⟩
    | some rid =>
      rw [gtmGo_step botId linkTest fetch fuel cur acc rid href] at h
      cases hst : stopCond botId linkTest cur with
      | true =>
        rw [if_pos hst] at h
        injection h with h
        subst h
        refine ⟨[], ?_, by simp⟩
        rw [walkGo_step botId linkTest fetch fuel cur rid href, if_pos hst]
      | false =>
        rw [if_neg (by simp [hst])] at h
        cases hf : fetch rid with
        | none => rw [hf] at h; exact absurd h (by simp)
        | some m =>
          rw [hf] at h
          obtain ⟨ms', hw, hl⟩ := ih m (stepTurns botId m ++ acc) l h
          refine ⟨m :: ms', ?_, ?_⟩
          · rw [walkGo_step botId linkTest fetch fuel cur rid href, if_neg (by simp [hst]), hf]
            show (walkGo botId linkTest fetch fuel m).map (m :: ·) = some (m :: ms')
            rw [hw]
            rfl
          · rw [hl]
            simp [List.flatten_append, List.append_assoc]

/-! ## C5: output length -/

/-- Whether one fetched message triggers the synthesized-quote branch of the
walk body (bot author, first embed's footer starts with the marker): exactly
the messages contributing two turns instead of one. -/
def synthQuote (botId : Nat) (m : Msg) : Bool :=
  (m.authorId == botId) &&
  (match m.embeds with
   | e :: _ =>
     (match e.footerText with
      | some ft => jsStartsWith ft responseToMarker
      | none => false)
   | [] => false)

theorem stepTurns_length (botId : Nat) (m : Msg) :
    (stepTurns botId m).length = if synthQuote botId m then 2 else 1 := by
  unfold stepTurns synthQuote
  cases hb : m.authorId == botId
  · simp
  · cases he : m.embeds with
    | nil => simp
    | cons e es =>
      cases hft : e.footerText with
      | none => simp [hft]
      | some ft => cases hsw : jsStartsWith ft responseToMarker <;> simp [hft, hsw]

theorem flatten_rev_turns_length (botId : Nat) (ms : List Msg) :
    (((ms.map (stepTurns botId)).reverse).flatten).length =
      ms.length + ms.countP (synthQuote botId) := by
  induction ms with
  | nil => simp
  | cons m rest ih =>
    simp only [List.map_cons, List.reverse_cons, List.flatten_append,
      List.length_append, ih, List.flatten_cons, List.flatten_nil,
      List.append_nil, List.length_cons, List.countP_cons]
    rw [stepTurns_length]
    cases h : synthQuote botId m <;> simp [h] <;> omega

/-- C5 (amended): a successful walk that fetched the messages `ms` (depth
`ms.length`) produces exactly `ms.length + S` turns, where `S` is the number
of fetched messages triggering the synthesized-quote branch — `N` turns when
no quoted turn is synthesized, `N + 1` when exactly one is, and more when
several are. -/
theorem getThreadMessages_length (botId : Nat) (linkTest : String → Bool)
    (fetch : Nat → Option Msg) (fuel : Nat) (msg : Msg) (l : List Turn)
    (h : getThreadMessages botId linkTest fetch fuel msg = .ok l) :
    ∃ ms, walkGo botId linkTest fetch fuel msg = some ms ∧
      l.length = ms.length + ms.countP (synthQuote botId) := by
  obtain ⟨ms, hw, hl⟩ :=
    getThreadMessagesGo_ok_structure botId linkTest fetch fuel msg [] l h
  refine ⟨ms, hw, ?_⟩
  rw [hl, List.append_nil, flatten_rev_turns_length]

def c5M1 : Msg := ⟨1, "http://z.w", none, [⟨some "Response to message by ann\n\nworld"⟩], 10⟩

def c5M2 : Msg := ⟨1, "http://x.y", some 1, [⟨some "Response to message by bob\n\nhello"⟩], 20⟩

def c5Msg : Msg := ⟨9, "q", some 2, [], 30⟩

def c5Fetch : Nat → Option Msg := fun id =>
  if id = 2 then some c5M2 else if id = 1 then some c5M1 else none

/-- Counterexample to C5 as stated: a reply chain of depth 2 (two fetched
messages, both synthesized-quote bot answers whose content matches the link
pattern) produces 4 turns — neither N = 2 nor N + 1 = 3. -/
theorem getThreadMessages_length_counterexample :
    getThreadMessages 1 (fun _ => true) c5Fetch 10 c5Msg =
      .ok [⟨"user", some "world"⟩, ⟨"model", some "http://z.w"⟩,
           ⟨"user", some "hello"⟩, ⟨"model", some "http://x.y"⟩] ∧
    walkGo 1 (fun _ => true) c5Fetch 10 c5Msg = some [c5M2, c5M1] ∧
    ¬((4 : Nat) = 2 ∨ (4 : Nat) = 2 + 1) := by
  exact ⟨by decide, by decide, by decide⟩

def c5wM : Msg := ⟨4, "hey", none, [], 3⟩

def c5wMsg : Msg := ⟨9, "q", some 5, [], 9⟩

def c5wFetch : Nat → Option Msg := fun i => if i = 5 then some c5wM else none

/-- Witness for the amended C5 on a depth-1 chain with no synthesized quote:
1 turn = 1 + 0. -/
theorem getThreadMessages_length_witness :
    ∃ ms, walkGo 1 (fun _ => false) c5wFetch 7 c5wMsg = some ms ∧
      ([⟨"user", some "hey"⟩] : List Turn).length = ms.length + ms.countP (synthQuote 1) :=
  getThreadMessages_length 1 (fun _ => false) c5wFetch 7 c5wMsg
    [⟨"user", some "hey"⟩] (by decide)

/-! ## C9: user-mention stripping -/

theorem removeFirstMentionWs_of_not_contains :
    ∀ l : List Char, containsMentionWs l = false → removeFirstMentionWs l = l := by
  intro l
  induction l with
  | nil => intro _; rfl
  | cons c cs ih =>
    intro h
    cases hm : matchMentionWs (c :: cs) with
    | some r =>
      rw [containsMentionWs, hm] at h
      exact absurd h (by simp)
    | none =>
      rw [containsMentionWs, hm] at h
      rw [removeFirstMentionWs, hm, ih h]

/-- C9 (amended): a mid-walk message fetched into the cursor and classified as
a `user` turn is recorded with the first match of `/<@\d+>\s*/` — wherever it
occurs in the content, leading or not — removed; content containing no such
token is recorded unchanged. -/
theorem getThreadMessages_strips_first_mention (botId : Nat) (linkTest : String → Bool)
    (fetch : Nat → Option Msg) (fuel : Nat) (cur m : Msg) (acc : List Turn) (rid : Nat)
    (href : cur.reference = some rid)
    (hstop : stopCond botId linkTest cur = false)
    (hf : fetch rid = some m)
    (hu : (m.authorId == botId) = false) :
    getThreadMessagesGo botId linkTest fetch (fuel + 1) cur acc =
      getThreadMessagesGo botId linkTest fetch fuel m
        (⟨"user", some (replaceFirstMention m.content)⟩ :: acc) ∧
    (containsMentionWs m.content.data = false → replaceFirstMention m.content = m.content) := by
  constructor
  · rw [gtmGo_step botId linkTest fetch fuel cur acc rid href, if_neg (by simp [hstop]), hf]
    show getThreadMessagesGo botId linkTest fetch fuel m (stepTurns botId m ++ acc) = _
    unfold stepTurns
    rw [hu]
    rfl
  · intro hnm
    show String.mk (removeFirstMentionWs m.content.data) = m.content
    rw [removeFirstMentionWs_of_not_contains m.content.data hnm]

/-- The claim's reading of the strip (used only to exhibit the divergence):
remove the `/<@\d+>\s*/ ` token only when it is leading. -/
def stripLeadingMentionWs (s : String) : String :=
  match matchMentionWs s.data with
  | some rest => String.mk rest
  | none => s

def c9M : Msg := ⟨4, "hi <@123> x", none, [], 3⟩

def c9Msg : Msg := ⟨9, "q", some 5, [], 9⟩

def c9Fetch : Nat → Option Msg := fun i => if i = 5 then some c9M else none

/-- Counterexample to C9 as stated: the user content `"hi <@123> x"` carries
no leading mention token, so the claim records it unchanged; the code's
`replace` removes the first occurrence anywhere, and the recorded turn text is
`"hi x"`. -/
theorem getThreadMessages_strip_counterexample :
    stripLeadingMentionWs "hi <@123> x" = "hi <@123> x" ∧
    replaceFirstMention "hi <@123> x" = "hi x" ∧
    getThreadMessages 1 (fun _ => false) c9Fetch 10 c9Msg = .ok [⟨"user", some "hi x"⟩] ∧
    ("hi x" : String) ≠ "hi <@123> x" := by
  exact ⟨by decide, by decide, by decide, by decide⟩

def c9wM : Msg := ⟨4, "<@55> yo", none, [], 3⟩

def c9wMsg : Msg := ⟨9, "q", some 2, [], 9⟩

def c9wFetch : Nat → Option Msg := fun i => if i = 2 then some c9wM else none

/-- Witness for the amended C9 at a concrete walk step. -/
theorem getThreadMessages_strips_first_mention_witness :
    getThreadMessagesGo 1 (fun _ => false) c9wFetch 6 c9wMsg [] =
      getThreadMessagesGo 1 (fun _ => false) c9wFetch 5 c9wM
        [⟨"user", some (replaceFirstMention "<@55> yo")⟩] ∧
    (containsMentionWs ("<@55> yo").data = false →
      replaceFirstMention "<@55> yo" = "<@55> yo") :=
  getThreadMessages_strips_first_mention 1 (fun _ => false) c9wFetch 5 c9wMsg c9wM [] 2
    (by decide) (by decide) (by decide) (by decide)

/-! ## C4: synthesized quoted turn -/

/-- C4: when the walk fetches a bot message whose first embed's footer starts
with `"Response to message by"`, it prepends a synthesized `user` turn holding
index 2 of the footer split on newlines and then the `model` turn with the raw
content (so in the accumulator — and in any final output — the user turn
immediately precedes the model turn), and the walk continues from that message
with exactly those two turns added, never re-processing it as a generic turn. -/
theorem getThreadMessages_quoted_step (botId : Nat) (linkTest : String → Bool)
    (fetch : Nat → Option Msg) (fuel : Nat) (cur m : Msg) (e : MsgEmbed) (ft : String)
    (acc l : List Turn) (rid : Nat)
    (href : cur.reference = some rid)
    (hstop : stopCond botId linkTest cur = false)
    (hf : fetch rid = some m)
    (hbot : (m.authorId == botId) = true)
    (he : m.embeds.head? = some e)
    (hft : e.footerText = some ft)
    (hsw : jsStartsWith ft responseToMarker = true)
    (hl : getThreadMessagesGo botId linkTest fetch (fuel + 1) cur acc = .ok l) :
    getThreadMessagesGo botId linkTest fetch (fuel + 1) cur acc =
      getThreadMessagesGo botId linkTest fetch fuel m
        (⟨"user", (jsSplitNl ft)[2]?⟩ :: ⟨"model", some m.content⟩ :: acc) ∧
    ∃ pre, l = pre ++ ⟨"user", (jsSplitNl ft)[2]?⟩ :: ⟨"model", some m.content⟩ :: acc := by
  have hstep : stepTurns botId m =
      [⟨"user", (jsSplitNl ft)[2]?⟩, ⟨"model", some m.content⟩] := by
    unfold stepTurns
    rw [hbot]
    cases hemb : m.embeds with
    | nil => rw [hemb] at he; exact absurd he (by simp)
    | cons e0 es =>
      rw [hemb] at he
      have he0 : e0 = e := by simpa using he
      subst he0
      simp [hft, hsw]
  have heq : getThreadMessagesGo botId linkTest fetch (fuel + 1) cur acc =
      getThreadMessagesGo botId linkTest fetch fuel m
        (⟨"user", (jsSplitNl ft)[2]?⟩ :: ⟨"model", some m.content⟩ :: acc) := by
    rw [gtmGo_step botId linkTest fetch fuel cur acc rid href, if_neg (by simp [hstop]), hf]
    show getThreadMessagesGo botId linkTest fetch fuel m (stepTurns botId m ++ acc) = _
    rw [hstep]
    rfl
  refine ⟨heq, ?_⟩
  rw [heq] at hl
  obtain ⟨ms, _, hstructure⟩ :=
    getThreadMessagesGo_ok_structure botId linkTest fetch fuel m _ l hl
  exact ⟨((ms.map (stepTurns botId)).reverse).flatten, hstructure⟩

def c4wM : Msg := ⟨1, "resp", none, [⟨some "Response to message by bob\n\nhiya"⟩], 3⟩

def c4wMsg : Msg := ⟨9, "q", some 3, [], 9⟩

def c4wFetch : Nat → Option Msg := fun i => if i = 3 then some c4wM else none

/-- Witness for C4 at a concrete walk step: the footer's third line `"hiya"`
becomes a synthesized user turn placed immediately before the model turn. -/
theorem getThreadMessages_quoted_step_witness :
    getThreadMessagesGo 1 (fun _ => false) c4wFetch 6 c4wMsg [] =
      getThreadMessagesGo 1 (fun _ => false) c4wFetch 5 c4wM
        [⟨"user", some "hiya"⟩, ⟨"model", some "resp"⟩] ∧
    ∃ pre, ([⟨"user", some "hiya"⟩, ⟨"model", some "resp"⟩] : List Turn) =
      pre ++ [⟨"user", some "hiya"⟩, ⟨"model", some "resp"⟩] :=
  getThreadMessages_quoted_step 1 (fun _ => false) c4wFetch 5 c4wMsg c4wM
    ⟨some "Response to message by bob\n\nhiya"⟩ "Response to message by bob\n\nhiya"
    [] [⟨"user", some "hiya"⟩, ⟨"model", some "resp"⟩] 3
    (by decide) (by decide) (by decide) (by decide) (by decide) (by decide) (by decide)
    (by decide)

/-! ## C1: chronological order -/

/-- Platform chronology at one message: anything fetched via its reply
reference was created strictly earlier. -/
def ChronoStep (fetch : Nat → Option Msg) (m : Msg) : Prop :=
  ∀ rid m', m.reference = some rid → fetch rid = some m' →
    m'.createdTimestamp < m.createdTimestamp

/-- Platform chronology: every fetchable message satisfies `ChronoStep`
(replies are newer than the messages they reference). -/
def ChronoFetch (fetch : Nat → Option Msg) : Prop :=
  ∀ i m, fetch i = some m → ChronoStep fetch m

/-- Chronological keys for the turns a fetched message contributes, aligned
positionally with `stepTurns`: the `j`-th turn of message `m` gets key
`2 * m.createdTimestamp + j` (so the synthesized user turn sorts directly
before its model turn, and turns of an older message sort before both). -/
def stepTimes (botId : Nat) (m : Msg) : List Nat :=
  (List.range (stepTurns botId m).length).map
    (fun j => 2 * m.createdTimestamp + j)

theorem stepTimes_forms (botId : Nat) (m : Msg) :
    stepTimes botId m = [2 * m.createdTimestamp] ∨
    stepTimes botId m = [2 * m.createdTimestamp, 2 * m.createdTimestamp + 1] := by
  unfold stepTimes
  rw [stepTurns_length]
  have hr1 : List.range 1 = [0] := rfl
  have hr2 : List.range 2 = [0, 1] := rfl
  cases h : synthQuote botId m
  · left
    simp [hr1]
  · right
    rw [if_pos rfl]
    simp [hr2]

theorem stepTimes_length_eq (botId : Nat) (m : Msg) :
    (stepTimes botId m).length = (stepTurns botId m).length := by
  simp [stepTimes]

/-- The walked messages are strictly decreasing in creation time. -/
theorem walkGo_times (botId : Nat) (linkTest : String → Bool) (fetch : Nat → Option Msg)
    (hcf : ChronoFetch fetch) :
    ∀ (fuel : Nat) (cur : Msg) (ms : List Msg), ChronoStep fetch cur →
      walkGo botId linkTest fetch fuel cur = some ms →
      List.Chain' (fun a b => b < a)
        (cur.createdTimestamp :: ms.map Msg.createdTimestamp) := by
  intro fuel
  induction fuel with
  | zero => intro cur ms _ h; exact absurd h (by simp [walkGo])
  | succ fuel ih =>
    intro cur ms hcs h
    cases href : cur.reference with
    | none =>
      rw [walkGo_ref_none botId linkTest fetch fuel cur href] at h
      injection h with h
      subst h
      simp
    | some rid =>
      rw [walkGo_step botId linkTest fetch fuel cur rid href] at h
      cases hst : stopCond botId linkTest cur with
      | true =>
        rw [if_pos hst] at h
        injection h with h
        subst h
        simp
      | false =>
        rw [if_neg (by simp [hst])] at h
        cases hf : fetch rid with
        | none => rw [hf] at h; exact absurd h (by simp)
        | some m =>
          rw [hf] at h
          obtain ⟨ms', hw, hmap⟩ := Option.map_eq_some'.mp h
          subst hmap
          rw [List.map_cons, List.chain'_cons]
          exact ⟨hcs rid m href hf, ih m ms' (hcf rid m hf) hw⟩

/-- Sortedness of the chronological keys of a walk whose message times
strictly decrease: reading the reversed groups left to right gives strictly
increasing keys, all below `2 * t0`. -/
theorem chron_flatten (botId : Nat) :
    ∀ (ms : List Msg) (t0 : Nat),
      List.Chain' (fun a b => b < a) (t0 :: ms.map Msg.createdTimestamp) →
      List.Chain' (· < ·) (((ms.map (stepTimes botId)).reverse).flatten) ∧
      ∀ x ∈ ((ms.map (stepTimes botId)).reverse).flatten, x < 2 * t0 := by
  intro ms
  induction ms with
  | nil => intro t0 _; exact ⟨by simp, by simp⟩
  | cons m rest ih =>
    intro t0 h
    rw [List.map_cons, List.chain'_cons] at h
    obtain ⟨hlt, hrest⟩ := h
    obtain ⟨ihc, ihb⟩ := ih m.createdTimestamp hrest
    have hmem : ∀ x ∈ stepTimes botId m,
        x = 2 * m.createdTimestamp ∨ x = 2 * m.createdTimestamp + 1 := by
      intro x hx
      rcases stepTimes_forms botId m with hforms | hforms <;> rw [hforms] at hx <;>
        simp at hx <;> omega
    constructor
    · rw [List.map_cons, List.reverse_cons, List.flatten_append]
      rw [List.chain'_append]
      refine ⟨ihc, ?_, ?_⟩
      · simp only [List.flatten_cons, List.flatten_nil, List.append_nil]
        rcases stepTimes_forms botId m with hforms | hforms <;> rw [hforms] <;>
          simp [List.chain'_cons]
      · intro x hx y hy
        have hxmem : x ∈ ((rest.map (stepTimes botId)).reverse).flatten :=
          List.mem_of_mem_getLast? hx
        have hxb : x < 2 * m.createdTimestamp := ihb x hxmem
        have hyv : y = 2 * m.createdTimestamp := by
          rcases stepTimes_forms botId m with hforms | hforms <;>
            rw [List.flatten_cons, List.flatten_nil, List.append_nil, hforms] at hy <;>
            simp at hy <;> omega
        omega
    · intro x hx
      rw [List.map_cons, List.reverse_cons, List.flatten_append] at hx
      rcases List.mem_append.mp hx with hx | hx
      · have := ihb x hx
        omega
      · rw [List.flatten_cons, List.flatten_nil, List.append_nil] at hx
        rcases hmem x hx with h1 | h1 <;> omega

/-- C1: whenever `getThreadMessages` returns a turn sequence (and the platform
honours reply chronology — `ChronoFetch`/`ChronoStep`), the sequence is the
reversed concatenation of the walked messages' turn groups, and its
positionally aligned chronological keys are strictly increasing: the sequence
is in strictly chronological order, oldest first, despite backward traversal,
because every newly classified turn is prepended. -/
theorem getThreadMessages_chronological (botId : Nat) (linkTest : String → Bool)
    (fetch : Nat → Option Msg) (fuel : Nat) (msg : Msg) (l : List Turn)
    (hcf : ChronoFetch fetch) (hcs : ChronoStep fetch msg)
    (h : getThreadMessages botId linkTest fetch fuel msg = .ok l) :
    ∃ ms, walkGo botId linkTest fetch fuel msg = some ms ∧
      l = ((ms.map (stepTurns botId)).reverse).flatten ∧
      List.Chain' (· < ·) (((ms.map (stepTimes botId)).reverse).flatten) ∧
      (((ms.map (stepTimes botId)).reverse).flatten).length = l.length := by
  obtain ⟨ms, hw, hl⟩ :=
    getThreadMessagesGo_ok_structure botId linkTest fetch fuel msg [] l h
  have htimes := walkGo_times botId linkTest fetch hcf fuel msg ms hcs hw
  have hchron := chron_flatten botId ms msg.createdTimestamp htimes
  refine ⟨ms, hw, by simpa using hl, hchron.1, ?_⟩
  rw [hl, List.append_nil, List.length_flatten, List.length_flatten]
  have hmaps : ((ms.map (stepTimes botId)).reverse).map List.length =
      ((ms.map (stepTurns botId)).reverse).map List.length := by
    rw [List.map_reverse, List.map_reverse, List.map_map, List.map_map]
    have : (List.length ∘ stepTimes botId) = (List.length ∘ stepTurns botId) := by
      funext m
      exact stepTimes_length_eq botId m
    rw [this]
  rw [hmaps]

def c1wM : Msg := ⟨7, "hello", none, [], 5⟩

def c1wMsg : Msg := ⟨9, "q", some 1, [], 10⟩

def c1wFetch : Nat → Option Msg := fun i => if i = 1 then some c1wM else none

theorem c1wFetch_chrono : ChronoFetch c1wFetch := by
  intro i m hm rid m' hr hf
  by_cases hi : i = 1
  · subst hi
    have hm1 : (some c1wM : Option Msg) = some m := hm
    injection hm1 with hm1
    subst hm1
    have hr1 : (none : Option Nat) = some rid := hr
    exact absurd hr1 (by simp)
  · have hm1 : (none : Option Msg) = some m := by
      rw [← hm]
      simp [c1wFetch, hi]
    exact absurd hm1 (by simp)

theorem c1wMsg_chrono : ChronoStep c1wFetch c1wMsg := by
  intro rid m' hr hf
  have hrid : (some 1 : Option Nat) = some rid := hr
  injection hrid with hrid
  subst hrid
  have hm1 : (some c1wM : Option Msg) = some m' := hf
  injection hm1 with hm1
  subst hm1
  decide

/-- Witness for C1 on a concrete depth-1 chain (inbound message at time 10
replying to a user message at time 5). -/
theorem getThreadMessages_chronological_witness :
    ∃ ms, walkGo 1 (fun _ => false) c1wFetch 4 c1wMsg = some ms ∧
      ([⟨"user", some "hello"⟩] : List Turn) =
        ((ms.map (stepTurns 1)).reverse).flatten ∧
      List.Chain' (· < ·) (((ms.map (stepTimes 1)).reverse).flatten) ∧
      (((ms.map (stepTimes 1)).reverse).flatten).length =
        ([⟨"user", some "hello"⟩] : List Turn).length :=
  getThreadMessages_chronological 1 (fun _ => false) c1wFetch 4 c1wMsg
    [⟨"user", some "hello"⟩] c1wFetch_chrono c1wMsg_chrono (by decide)

/-! ## C2: mid-chain deletion resets the history -/

theorem fetchThreadMessages_eq (key : Option String) (message : Msg) (botId : Nat)
    (linkTest : String → Bool) (fetch : Nat → Option Msg) (fuel : Nat) (rid : Nat)
    (hkey : checkGeminiApiKey key = false)
    (href : message.reference = some rid) :
    fetchThreadMessages key message botId linkTest fetch fuel =
      (match fetch rid with
       | none => .ok ⟨some message.content, some [], some "threadDeleted"⟩
       | some originalMessage =>
         if isInvalidOriginalMessage botId originalMessage linkTest startStrings then
           .ok ⟨none, none, some "threadDeleted"⟩
         else if originalMessage.authorId == botId then
           match getThreadMessages botId linkTest fetch fuel message with
           | .ok l => .ok ⟨some message.content, some l, none⟩
           | .notFound => .ok ⟨some message.content, some [], some "threadDeleted"⟩
           | .fuelOut => .fuelOut
         else .ok ⟨some message.content, some [], none⟩) := by
  unfold fetchThreadMessages
  rw [hkey]
  simp only [Bool.false_eq_true, if_false]
  rw [href]

/-- The reset behavior the claim (and the `catch` at source lines 206-215)
describes, proved over the INTENDED semantics `fetchThreadMessages` (the gate
given its documented body value — in the source as written the walk is
unreachable, see `fetchThreadMessagesActual`): with a valid key, whenever a
referenced-message fetch fails with the platform's not-found error — either
immediately on the referenced message, or anywhere during a walk that was
entered — the result is an empty `threadMessages` and
`messageDeleted = "threadDeleted"`, discarding everything the walk had
accumulated.  Evidence that the claim states the intent. -/
theorem fetchThreadMessages_deleted_resets (key : Option String) (message : Msg)
    (botId : Nat) (linkTest : String → Bool) (fetch : Nat → Option Msg) (fuel : Nat)
    (rid : Nat) (hkey : checkGeminiApiKey key = false)
    (href : message.reference = some rid)
    (hfail : fetch rid = none ∨
      (∃ orig, fetch rid = some orig ∧
        isInvalidOriginalMessage botId orig linkTest startStrings = false ∧
        (orig.authorId == botId) = true ∧
        getThreadMessages botId linkTest fetch fuel message = .notFound)) :
    fetchThreadMessages key message botId linkTest fetch fuel =
      .ok ⟨some message.content, some [], some "threadDeleted"⟩ := by
  rw [fetchThreadMessages_eq key message botId linkTest fetch fuel rid hkey href]
  rcases hfail with hnone | ⟨orig, horig, hval, hbot, hnf⟩
  · rw [hnone]
  · rw [horig]
    show (if isInvalidOriginalMessage botId orig linkTest startStrings then
        FetchOutcome.ok ⟨none, none, some "threadDeleted"⟩
      else if orig.authorId == botId then
        match getThreadMessages botId linkTest fetch fuel message with
        | .ok l => FetchOutcome.ok ⟨some message.content, some l, none⟩
        | .notFound => FetchOutcome.ok ⟨some message.content, some [], some "threadDeleted"⟩
        | .fuelOut => FetchOutcome.fuelOut
      else FetchOutcome.ok ⟨some message.content, some [], none⟩) =
      FetchOutcome.ok ⟨some message.content, some [], some "threadDeleted"⟩
    rw [hval]
    simp only [Bool.false_eq_true, if_false]
    rw [if_pos hbot, hnf]

def c2Orig : Msg := ⟨1, "mid", some 9, [], 20⟩

def c2Msg : Msg := ⟨7, "q2", some 2, [], 30⟩

def c2Fetch : Nat → Option Msg := fun i => if i = 2 then some c2Orig else none

def c2DelMsg : Msg := ⟨7, "qdel", some 3, [], 30⟩

/-- C2, settled against the source as written.  In order:
(i) the one reachable referenced-message fetch failure — the referenced
message itself deleted, thrown at line 195 before the gate runs — does take
the `catch` and return the reset object (empty history, `threadDeleted`);
(ii) at the failing input (valid key, reply referencing the bot's plain
message 2, whose own referent 9 is deleted) the source as written instead
throws: the gate's `ReferenceError` is rethrown before any walk, so the
claimed mid-walk reset is never produced;
(iii) the walk that the source intends to run there really would fail with
not-found only after accumulating one turn (the bot's `"mid"`), and on the
inbound message it reports `notFound`;
(iv) over the intended gate denotation the claimed reset does come out
(`fetchThreadMessages`, cf. `fetchThreadMessages_deleted_resets`). -/
theorem fetchThreadMessages_deleted_eval :
    fetchThreadMessagesActual (some "GOODKEY") c2DelMsg (fun _ => none) =
      .ok ⟨some "qdel", some [], some "threadDeleted"⟩ ∧
    fetchThreadMessagesActual (some "GOODKEY") c2Msg c2Fetch = .thrown ∧
    getThreadMessagesGo 1 (fun _ => false) c2Fetch 9 c2Orig
      [⟨"model", some "mid"⟩] = .notFound ∧
    getThreadMessages 1 (fun _ => false) c2Fetch 10 c2Msg = .notFound ∧
    fetchThreadMessages (some "GOODKEY") c2Msg 1 (fun _ => false) c2Fetch 10 =
      .ok ⟨some "q2", some [], some "threadDeleted"⟩ :=
  ⟨by decide, by decide, by decide, by decide, by decide⟩

/-! ## C3: invalid referenced message -/

def c3Orig : Msg := ⟨5, "other", none, [⟨some "hello"⟩], 20⟩

def c3Msg : Msg := ⟨7, "q3", some 2, [], 30⟩

def c3Fetch : Nat → Option Msg := fun i => if i = 2 then some c3Orig else none

/-- C3, evaluated at the failing input over the gate's intended denotation
(`botId` for the out-of-scope `message.client.user.id`; see
`isInvalidOriginalMessage`): a referenced message authored by user 5 (not the
bot, id 1) carrying an embed with no recognized footer prefix, with the link
test failing, is classified invalid, and `fetchThreadMessages` then yields a
null question, null history and `messageDeleted = "threadDeleted"`, skipping
reconstruction.  In the source as written this very input instead throws a
`ReferenceError` (the identifier `message` is unbound inside
`isInvalidOriginalMessage`), which the `catch` rethrows. -/
theorem fetchThreadMessages_invalid_gate_eval :
    isInvalidOriginalMessage 1 c3Orig (fun _ => false) startStrings = true ∧
    fetchThreadMessages (some "GOODKEY") c3Msg 1 (fun _ => false) c3Fetch 10 =
      .ok ⟨none, none, some "threadDeleted"⟩ :=
  ⟨by decide, by decide⟩
